import Mathlib

/-!
# idlib-math, `vector_3.h`: three component vectors of `idlib_f32`

A shallow embedding of `src/includes/vector_3.h`.

* The header `scalar.h` (the type `idlib_f32`, `idlib_sqrt_f32`) is not among the
  sources.  The vector functions are therefore embedded over an arbitrary scalar
  type `F` with the operations the header uses (`Scalar F`); the statements that
  only depend on the shape of the code are proved for every such `F`.
* `F32` / `binary32` is a value-level model of IEEE-754 binary32 (round to
  nearest, ties to even), used where a statement depends on the arithmetic.
* Objects live in a store indexed by addresses, pointers are `Option Nat`
  (`none` is `NULL`), so that every aliasing pattern of the arguments can be
  expressed.  Each assignment of the C code is one store update, in source order,
  and each read goes to the store as it is at that point.
-/

set_option maxRecDepth 100000
set_option exponentiation.threshold 2000

namespace Idlib

/-! ## Scalars -/

/-- The operations on `idlib_f32` used by `vector_3.h`: the C operators `+`, `-`,
`*`, `==`, the function `idlib_sqrt_f32` and the literal `0.f`. -/
structure Scalar (F : Type) where
  add : F → F → F
  sub : F → F → F
  mul : F → F → F
  eq : F → F → Bool
  sqrt : F → F
  zero : F

/-! ## The data model -/

/-- The type `typedef struct idlib_vector_3_f32 { idlib_f32 e[3]; } idlib_vector_3_f32;`,
lines 11-13: an array of three scalars. -/
structure idlib_vector_3_f32 (F : Type) where
  e : Fin 3 → F

/-- The object with components `x`, `y`, `z`. -/
def idlib_vector_3_f32.ofComponents {F : Type} (x y z : F) : idlib_vector_3_f32 F :=
  ⟨![x, y, z]⟩

/-- A pointer to an `idlib_vector_3_f32`: `none` is `NULL`, `some a` points to the
object at address `a`. -/
abbrev Ptr := Option Nat

/-- The store: the object held at every address. -/
abbrev Store (F : Type) := Nat → idlib_vector_3_f32 F

/-- The read `p->e[i]`. -/
def Store.read {F : Type} (σ : Store F) (p : Nat) (i : Fin 3) : F :=
  (σ p).e i

/-- The assignment `p->e[i] = x`. -/
def Store.write {F : Type} (σ : Store F) (p : Nat) (i : Fin 3) (x : F) : Store F :=
  Function.update σ p ⟨Function.update (σ p).e i x⟩

/-! ## The functions of `vector_3.h`

`IDLIB_DEBUG_ASSERT(NULL != p)` aborts in a debug build: a function applied to a
`NULL` pointer yields `none`.  The assertions of one function all precede its
first read or write, so matching on all the pointers at once is their sequence. -/

/-- Embedding of `idlib_vector_3_f32_get_squared_length`, lines 97-108. -/
def idlib_vector_3_f32_get_squared_length {F : Type} (S : Scalar F) (σ : Store F)
    (operand : Ptr) : Option F :=
  match operand with
  | none => none
  | some p =>
    let length_squared :=
      S.add (S.add (S.mul (σ.read p 0) (σ.read p 0)) (S.mul (σ.read p 1) (σ.read p 1)))
        (S.mul (σ.read p 2) (σ.read p 2))
    some length_squared

/-- Embedding of `idlib_vector_3_f32_get_length`, lines 110-115. -/
def idlib_vector_3_f32_get_length {F : Type} (S : Scalar F) (σ : Store F)
    (operand : Ptr) : Option F :=
  (idlib_vector_3_f32_get_squared_length S σ operand).map S.sqrt

/-- Embedding of `idlib_vector_3_f32_set`, lines 117-131. -/
def idlib_vector_3_f32_set {F : Type} (σ : Store F) (target : Ptr) (x y z : F) :
    Option (Store F) :=
  match target with
  | none => none
  | some t =>
    let σ₁ := σ.write t 0 x
    let σ₂ := σ₁.write t 1 y
    let σ₃ := σ₂.write t 2 z
    some σ₃

/-- Embedding of `idlib_vector_3_f32_set_zero`, lines 133-138. -/
def idlib_vector_3_f32_set_zero {F : Type} (S : Scalar F) (σ : Store F) (target : Ptr) :
    Option (Store F) :=
  idlib_vector_3_f32_set σ target S.zero S.zero S.zero

/-- Embedding of `idlib_vector_3_f32_add`, lines 140-154. -/
def idlib_vector_3_f32_add {F : Type} (S : Scalar F) (σ : Store F)
    (target operand1 operand2 : Ptr) : Option (Store F) :=
  match target, operand1, operand2 with
  | some t, some a, some b =>
    let σ₁ := σ.write t 0 (S.add (σ.read a 0) (σ.read b 0))
    let σ₂ := σ₁.write t 1 (S.add (σ₁.read a 1) (σ₁.read b 1))
    let σ₃ := σ₂.write t 2 (S.add (σ₂.read a 2) (σ₂.read b 2))
    some σ₃
  | _, _, _ => none

/-- Embedding of `idlib_vector_3_f32_subtract`, lines 156-170. -/
def idlib_vector_3_f32_subtract {F : Type} (S : Scalar F) (σ : Store F)
    (target operand1 operand2 : Ptr) : Option (Store F) :=
  match target, operand1, operand2 with
  | some t, some a, some b =>
    let σ₁ := σ.write t 0 (S.sub (σ.read a 0) (σ.read b 0))
    let σ₂ := σ₁.write t 1 (S.sub (σ₁.read a 1) (σ₁.read b 1))
    let σ₃ := σ₂.write t 2 (S.sub (σ₂.read a 2) (σ₂.read b 2))
    some σ₃
  | _, _, _ => none

/-- Embedding of `idlib_vector_3_f32_are_equal`, lines 172-187. -/
def idlib_vector_3_f32_are_equal {F : Type} (S : Scalar F) (σ : Store F)
    (operand1 operand2 : Ptr) : Option Bool :=
  match operand1, operand2 with
  | some a, some b =>
    if a = b then
      some true
    else
      some (S.eq (σ.read a 0) (σ.read b 0)
        && S.eq (σ.read a 1) (σ.read b 1)
        && S.eq (σ.read a 2) (σ.read b 2))
  | _, _ => none

/-! ## IEEE-754 binary32

Every finite binary32 number is an integer multiple of `2^(-149)` (the least
subnormal) and is below `2^128`.  A finite value is therefore kept as a sign and
the natural number `k` with magnitude `k * 2^(-149)`; exact sums and products of
such values are again integers (over `2^149` or `2^298`) and rounding works on
integers. -/

/-- Modelled from the spec: the type `idlib_f32` of `scalar.h` (not among the
sources), "an IEEE-754 binary32 float".  A value is a NaN, an infinity or a finite
number `(-1)^neg * k * 2^(-149)`; NaN payloads are not distinguished. -/
inductive F32 where
  | nan : F32
  | inf (neg : Bool) : F32
  | fin (neg : Bool) (k : Nat) : F32
deriving DecidableEq

/-- Number of binary digits of `n`; the first argument bounds the recursion. -/
def bitLengthFuel : Nat → Nat → Nat
  | 0, _ => 0
  | fuel + 1, n => if n = 0 then 0 else bitLengthFuel fuel (n / 2) + 1

/-- Number of binary digits of `n` (`0` for `n = 0`). -/
def bitLength (n : Nat) : Nat := bitLengthFuel n n

/-- Digit-by-digit integer square root: the bits `i-1, ..., 0` are tried in turn
on top of the partial root `r`. -/
def isqrtBits (n : Nat) : Nat → Nat → Nat
  | 0, r => r
  | i + 1, r => isqrtBits n i (if (r + 2 ^ i) * (r + 2 ^ i) ≤ n then r + 2 ^ i else r)

/-- Integer square root (rounded down). -/
def isqrt (n : Nat) : Nat := isqrtBits n (bitLength n / 2 + 1) 0

namespace F32

/-- The magnitudes `k` (in units of `2^(-149)`) of the finite binary32 numbers:
below `2^128`, and with at most 24 significant binary digits. -/
def Representable (k : Nat) : Prop :=
  k < 2 ^ 277 ∧ k % 2 ^ (bitLength k - 24) = 0

instance (k : Nat) : Decidable (Representable k) := by
  unfold Representable; infer_instance

/-- The values that are binary32 numbers. -/
def Valid : F32 → Prop
  | fin _ k => Representable k
  | _ => True

instance (x : F32) : Decidable (Valid x) := by
  cases x <;> unfold Valid <;> infer_instance

/-- Round to nearest, ties to even: the binary32 value of the real number
`(-1)^neg * n * 2^(-149 - sh)`.  The result is a multiple of `2^d` (in units of
`2^(-149 - sh)`), where `d` leaves 24 significant digits, and at least `sh` so
that the result is a multiple of `2^(-149)`; magnitudes of `2^128` and more
overflow to an infinity. -/
def round (neg : Bool) (n sh : Nat) : F32 :=
  let d := max sh (bitLength n - 24)
  let q := n / 2 ^ d
  let r := n % 2 ^ d
  let q' := if 2 ^ d < 2 * r ∨ (2 * r = 2 ^ d ∧ q % 2 = 1) then q + 1 else q
  let k := q' * 2 ^ (d - sh)
  if k < 2 ^ 277 then fin neg k else inf neg

/-- The literal `0.f`, positive zero. -/
def zero : F32 := fin false 0

/-- The binary32 value nearest to the natural number `n`. -/
def ofNat (n : Nat) : F32 := round false (n * 2 ^ 149) 0

/-- Unary minus. -/
def neg : F32 → F32
  | nan => nan
  | inf s => inf (!s)
  | fin s k => fin (!s) k

/-- Modelled from the spec: the C operator `+` on `idlib_f32`, "standard float
addition (commutative, not generally associative, subject to IEEE-754 rounding)":
the exact sum, rounded. -/
def add : F32 → F32 → F32
  | nan, _ => nan
  | inf _, nan => nan
  | inf s, inf s' => if s = s' then inf s else nan
  | inf s, fin _ _ => inf s
  | fin _ _, nan => nan
  | fin _ _, inf s' => inf s'
  | fin s k, fin s' k' =>
    if s = s' then round s (k + k') 0
    else if k' < k then round s (k - k') 0
    else if k < k' then round s' (k' - k) 0
    else fin false 0

/-- Modelled from the spec: the C operator `-` on `idlib_f32`; in IEEE-754,
`x - y` is `x + (-y)`. -/
def sub (x y : F32) : F32 := add x (neg y)

/-- Modelled from the spec: the C operator `*` on `idlib_f32`: the exact product
`k * k' * 2^(-298)`, rounded. -/
def mul : F32 → F32 → F32
  | nan, _ => nan
  | inf _, nan => nan
  | inf s, inf s' => inf (xor s s')
  | inf s, fin s' k' => if k' = 0 then nan else inf (xor s s')
  | fin _ _, nan => nan
  | fin s k, inf s' => if k = 0 then nan else inf (xor s s')
  | fin s k, fin s' k' => round (xor s s') (k * k') 149

/-- Modelled from the spec: the C operator `==` on `idlib_f32`, "IEEE-754
equality": a NaN equals nothing, and `+0.0` equals `-0.0`. -/
def eq : F32 → F32 → Bool
  | inf s, inf s' => s == s'
  | fin s k, fin s' k' => (k == 0 && k' == 0) || (s == s' && k == k')
  | _, _ => false

/-- The IEEE-754 comparison `<=` (used to state the claims; the header does not
compare with `<=`). -/
def le : F32 → F32 → Bool
  | nan, _ => false
  | _, nan => false
  | inf s, inf s' => s || !s'
  | inf s, fin _ _ => s
  | fin _ _, inf s' => !s'
  | fin s k, fin s' k' =>
    match s, s' with
    | false, false => k ≤ k'
    | true, true => k' ≤ k
    | true, false => true
    | false, true => k == 0 && k' == 0

/-- Modelled from the spec: the function `idlib_sqrt_f32` of `scalar.h` (not among
the sources), "the standard single-precision square-root function": the
correctly rounded square root.  The root of `k * 2^(-149)` is
`sqrt (k * 2^149) * 2^(-149)`; its integer part `s` and the flag "inexact", as one
more binary digit, determine the rounding. -/
def sqrt : F32 → F32
  | nan => nan
  | inf s => if s then nan else inf false
  | fin s k =>
    if k = 0 then fin s 0
    else if s then nan
    else
      let s := isqrt (k * 2 ^ 149)
      round false (2 * s + (if s * s = k * 2 ^ 149 then 0 else 1)) 1

/-- Neither NaN nor an infinity. -/
def isFinite : F32 → Bool
  | fin _ _ => true
  | _ => false

/-- The value is a NaN. -/
def isNaN : F32 → Bool
  | nan => true
  | _ => false

end F32

/-- Modelled from the spec: the arithmetic of `idlib_f32` (`scalar.h` is not
among the sources), "standard IEEE-754 single-precision arithmetic". -/
def binary32 : Scalar F32 where
  add := F32.add
  sub := F32.sub
  mul := F32.mul
  eq := F32.eq
  sqrt := F32.sqrt
  zero := F32.zero

/-! ## Definitions used to state the claims -/

/-- The reference formulation of the sum: the result is computed from the
operands as they are before the call into a fresh temporary object, and the
temporary is then copied into the target. -/
def add_via_temporary {F : Type} (S : Scalar F) (σ : Store F) (t a b : Nat) : Store F :=
  let temporary : idlib_vector_3_f32 F := ⟨fun i => S.add (σ.read a i) (σ.read b i)⟩
  Function.update σ t temporary

/-- The reference formulation of the difference: computed from the operands as
they are before the call into a fresh temporary object, which is then copied into
the target. -/
def subtract_via_temporary {F : Type} (S : Scalar F) (σ : Store F) (t a b : Nat) :
    Store F :=
  let temporary : idlib_vector_3_f32 F := ⟨fun i => S.sub (σ.read a i) (σ.read b i)⟩
  Function.update σ t temporary

/-- The store that holds the objects `objs` at the addresses `0, 1, ...` and the
zero vector everywhere else. -/
def Store.ofList (objs : List (idlib_vector_3_f32 F32)) : Store F32 :=
  fun p => objs.getD p (idlib_vector_3_f32.ofComponents F32.zero F32.zero F32.zero)

/-- The vector with the components `x`, `y`, `z` given as natural numbers. -/
def vec (x y z : Nat) : idlib_vector_3_f32 F32 :=
  idlib_vector_3_f32.ofComponents (F32.ofNat x) (F32.ofNat y) (F32.ofNat z)

/-- Some component of the object at `p` is a NaN. -/
def Store.hasNaN (σ : Store F32) (p : Nat) : Bool :=
  (σ.read p 0).isNaN || (σ.read p 1).isNaN || (σ.read p 2).isNaN

/-- The sign bit is clear and the value is not a NaN: `+0`, a positive finite
number or `+Inf`. -/
def F32.isNonNeg : F32 → Bool
  | F32.inf false => true
  | F32.fin false _ => true
  | _ => false

/-- The exact value of a finite number, in units of `2^(-149)`. -/
def F32.value : F32 → Option Int
  | F32.fin s k => some (if s then -(k : Int) else (k : Int))
  | _ => none

/-- The addition `a + b` is exact: `a` and `b` are finite and the binary32 sum is
finite with the value of the real sum, so neither rounding nor overflow occurs. -/
def F32.addExact (a b : F32) : Bool :=
  match a.value, b.value, (F32.add a b).value with
  | some x, some y, some z => z == x + y
  | _, _, _ => false

/-- The exact square of `r` equals `q` up to a relative error of `2^(-22)`:
for `r = R * 2^(-149)` and `q = K * 2^(-149)` this is
`|R^2 - K * 2^149| * 2^22 <= K * 2^149` (both sides in units of `2^(-298)`); an
infinite `q` requires the same infinity for `r`. -/
def F32.squareNear : F32 → F32 → Prop
  | F32.fin _ R, F32.fin _ K =>
    |(R : Int) * (R : Int) - (K : Int) * 2 ^ 149| * 2 ^ 22 ≤ (K : Int) * 2 ^ 149
  | F32.inf s, F32.inf s' => s = s'
  | _, _ => False

/-- The value a call returns: nothing (`void`), an `idlib_f32` or a `bool`. -/
inductive Result (F : Type) where
  | done : Result F
  | scalar (x : F) : Result F
  | bool (b : Bool) : Result F

/-- A call of one of the seven functions of `vector_3.h`, with its arguments. -/
inductive Call (F : Type) where
  | get_squared_length (operand : Ptr) : Call F
  | get_length (operand : Ptr) : Call F
  | set (target : Ptr) (x y z : F) : Call F
  | set_zero (target : Ptr) : Call F
  | add (target operand1 operand2 : Ptr) : Call F
  | subtract (target operand1 operand2 : Ptr) : Call F
  | are_equal (operand1 operand2 : Ptr) : Call F

/-- The store after a call together with the returned value; `none` is a failed
assertion.  The functions `get_squared_length`, `get_length` and `are_equal` take
pointers to `const` and contain no assignment through a pointer: after them the
store is the one they were called in. -/
def Call.run {F : Type} (S : Scalar F) (σ : Store F) : Call F → Option (Store F × Result F)
  | Call.get_squared_length p =>
    (idlib_vector_3_f32_get_squared_length S σ p).map (fun x => (σ, Result.scalar x))
  | Call.get_length p =>
    (idlib_vector_3_f32_get_length S σ p).map (fun x => (σ, Result.scalar x))
  | Call.set t x y z =>
    (idlib_vector_3_f32_set σ t x y z).map (fun σ' => (σ', Result.done))
  | Call.set_zero t =>
    (idlib_vector_3_f32_set_zero S σ t).map (fun σ' => (σ', Result.done))
  | Call.add t a b =>
    (idlib_vector_3_f32_add S σ t a b).map (fun σ' => (σ', Result.done))
  | Call.subtract t a b =>
    (idlib_vector_3_f32_subtract S σ t a b).map (fun σ' => (σ', Result.done))
  | Call.are_equal a b =>
    (idlib_vector_3_f32_are_equal S σ a b).map (fun r => (σ, Result.bool r))

/-- The pointer a call writes through: the `target` parameter of the four
functions that have one, `NULL` (nothing) for the three read-only functions. -/
def Call.target {F : Type} : Call F → Ptr
  | Call.set t _ _ _ => t
  | Call.set_zero t => t
  | Call.add t _ _ => t
  | Call.subtract t _ _ => t
  | _ => none

/-- The reference arguments of a call. -/
def Call.pointers {F : Type} : Call F → List Ptr
  | Call.get_squared_length p => [p]
  | Call.get_length p => [p]
  | Call.set t _ _ _ => [t]
  | Call.set_zero t => [t]
  | Call.add t a b => [t, a, b]
  | Call.subtract t a b => [t, a, b]
  | Call.are_equal a b => [a, b]

/-- The IEEE-754 comparison `<`: `x <= y` and not `x == y`. -/
def F32.lt (x y : F32) : Bool := F32.le x y && !F32.eq x y

/-- The magnitude `|x|` (`fabsf`): the sign bit is cleared. -/
def F32.abs : F32 → F32
  | F32.nan => F32.nan
  | F32.inf _ => F32.inf false
  | F32.fin _ k => F32.fin false k

/-! ## Store lemmas -/

theorem Store.read_write {F : Type} (σ : Store F) (p q : Nat) (i j : Fin 3) (x : F) :
    (σ.write p i x).read q j = if q = p ∧ j = i then x else σ.read q j := by
  unfold Store.write Store.read
  by_cases hq : q = p
  · subst hq
    by_cases hj : j = i
    · subst hj; simp
    · simp [hj]
  · simp [hq]

theorem add_eq_via_temporary {F : Type} (S : Scalar F) (σ : Store F) (t a b : Nat) :
    idlib_vector_3_f32_add S σ (some t) (some a) (some b)
      = some (add_via_temporary S σ t a b) := by
  simp only [idlib_vector_3_f32_add, add_via_temporary, Option.some.injEq]
  funext p
  by_cases hp : p = t
  · subst hp
    have h : ∀ (u v : idlib_vector_3_f32 F), u.e = v.e → u = v := by
      intro u v h; cases u; cases v; simp_all
    apply h
    funext i
    have := Store.read_write (F := F)
    simp only [Store.read] at this
    fin_cases i <;> simp [this, Store.read]
  · simp [Store.write, hp]

theorem subtract_eq_via_temporary {F : Type} (S : Scalar F) (σ : Store F) (t a b : Nat) :
    idlib_vector_3_f32_subtract S σ (some t) (some a) (some b)
      = some (subtract_via_temporary S σ t a b) := by
  simp only [idlib_vector_3_f32_subtract, subtract_via_temporary, Option.some.injEq]
  funext p
  by_cases hp : p = t
  · subst hp
    have h : ∀ (u v : idlib_vector_3_f32 F), u.e = v.e → u = v := by
      intro u v h; cases u; cases v; simp_all
    apply h
    funext i
    have := Store.read_write (F := F)
    simp only [Store.read] at this
    fin_cases i <;> simp [this, Store.read]
  · simp [Store.write, hp]

theorem set_eq_update {F : Type} (σ : Store F) (t : Nat) (x y z : F) :
    idlib_vector_3_f32_set σ (some t) x y z
      = some (Function.update σ t (idlib_vector_3_f32.ofComponents x y z)) := by
  simp only [idlib_vector_3_f32_set, Option.some.injEq]
  funext p
  by_cases hp : p = t
  · subst hp
    have h : ∀ (u v : idlib_vector_3_f32 F), u.e = v.e → u = v := by
      intro u v h; cases u; cases v; simp_all
    apply h
    funext i
    have := Store.read_write (F := F)
    simp only [Store.read] at this
    fin_cases i <;> simp [this, idlib_vector_3_f32.ofComponents]
  · simp [Store.write, hp]

theorem idlib_vector_3_f32.ext_e {F : Type} (u v : idlib_vector_3_f32 F) (h : u.e = v.e) :
    u = v := by
  cases u; cases v; simp_all

theorem F32.add_comm (x y : F32) : F32.add x y = F32.add y x := by
  cases x with
  | nan => cases y <;> rfl
  | inf s =>
    cases y with
    | nan => rfl
    | inf s' => cases s <;> cases s' <;> rfl
    | fin s' k' => rfl
  | fin s k =>
    cases y with
    | nan => rfl
    | inf s' => rfl
    | fin s' k' =>
      cases s <;> cases s' <;> simp only [F32.add, if_true, Bool.false_eq_true,
        Bool.true_eq_false, if_false, Nat.add_comm k k']
      · rcases Nat.lt_trichotomy k k' with h | h | h
        · simp [h, Nat.lt_asymm h]
        · simp [h]
        · simp [h, Nat.lt_asymm h]
      · rcases Nat.lt_trichotomy k k' with h | h | h
        · simp [h, Nat.lt_asymm h]
        · simp [h]
        · simp [h, Nat.lt_asymm h]

theorem F32.eq_comm (x y : F32) : F32.eq x y = F32.eq y x := by
  cases x with
  | nan => cases y <;> rfl
  | inf s =>
    cases y with
    | nan => rfl
    | inf s' => cases s <;> cases s' <;> rfl
    | fin s' k' => rfl
  | fin s k =>
    cases y with
    | nan => rfl
    | inf s' => rfl
    | fin s' k' =>
      simp only [F32.eq]
      rw [Bool.and_comm (k == 0) (k' == 0)]
      congr 1
      cases s <;> cases s' <;> simp <;> exact ⟨Eq.symm, Eq.symm⟩

/-! ## Claims on the shape of the code -/

/-- C1: for every store, every non-null target and operands (aliased in any way),
`idlib_vector_3_f32_add` returns, and afterwards component `i` of the target is
the sum of the pre-call components `i` of `operand1` and `operand2`. -/
theorem add_components {F : Type} (S : Scalar F) (σ : Store F) (t a b : Nat) :
    ∃ σ', idlib_vector_3_f32_add S σ (some t) (some a) (some b) = some σ' ∧
      ∀ i : Fin 3, σ'.read t i = S.add (σ.read a i) (σ.read b i) := by
  refine ⟨_, rfl, ?_⟩
  intro i
  fin_cases i <;> simp [Store.read_write]

/-- C2: for every store, every non-null target and operands (aliased in any way),
`idlib_vector_3_f32_subtract` returns, and afterwards component `i` of the target
is the pre-call component `i` of `operand1` minus that of `operand2`. -/
theorem subtract_components {F : Type} (S : Scalar F) (σ : Store F) (t a b : Nat) :
    ∃ σ', idlib_vector_3_f32_subtract S σ (some t) (some a) (some b) = some σ' ∧
      ∀ i : Fin 3, σ'.read t i = S.sub (σ.read a i) (σ.read b i) := by
  refine ⟨_, rfl, ?_⟩
  intro i
  fin_cases i <;> simp [Store.read_write]

/-- C3: `idlib_vector_3_f32_add` and `idlib_vector_3_f32_subtract` refine the
temporary-and-copy formulation for every store and every choice of the addresses
`t`, `a`, `b`, equal or not (so under every aliasing pattern): the call returns
the store in which the target holds the result computed from the pre-call
operands.  In particular this holds for `add(a, a, b)`, and `add(v, v, v)` with
`v = {1,1,1}` leaves `v = {2,2,2}` in binary32 arithmetic. -/
theorem add_subtract_aliasing :
    (∀ (F : Type) (S : Scalar F) (σ : Store F) (t a b : Nat),
      idlib_vector_3_f32_add S σ (some t) (some a) (some b)
        = some (add_via_temporary S σ t a b)) ∧
    (∀ (F : Type) (S : Scalar F) (σ : Store F) (t a b : Nat),
      idlib_vector_3_f32_subtract S σ (some t) (some a) (some b)
        = some (subtract_via_temporary S σ t a b)) ∧
    (∀ (F : Type) (S : Scalar F) (σ : Store F) (a b : Nat),
      idlib_vector_3_f32_add S σ (some a) (some a) (some b)
        = some (add_via_temporary S σ a a b)) ∧
    (∀ (σ : Store F32) (v : Nat),
      (idlib_vector_3_f32_add binary32 (Function.update σ v (vec 1 1 1))
          (some v) (some v) (some v)).map (fun σ' => (σ' v).e)
        = some (vec 2 2 2).e) := by
  have hadd := fun (F : Type) (S : Scalar F) (σ : Store F) (t a b : Nat) =>
    add_eq_via_temporary S σ t a b
  have hsub := fun (F : Type) (S : Scalar F) (σ : Store F) (t a b : Nat) =>
    subtract_eq_via_temporary S σ t a b
  refine ⟨hadd, hsub, fun F S σ a b => hadd F S σ a a b, ?_⟩
  intro σ v
  have h1 : ∀ i : Fin 3,
      binary32.add ((vec 1 1 1).e i) ((vec 1 1 1).e i) = (vec 2 2 2).e i := by decide
  rw [hadd]
  simp only [Option.map_some', add_via_temporary, Function.update_same, Option.some.injEq,
    Store.read]
  funext i
  exact h1 i

/-- C4: for every store and all non-null `a`, `b`, `idlib_vector_3_f32_are_equal`
returns, and it returns true if and only if `a` and `b` are the same reference or
the three pairs of corresponding components compare equal with `==`.  In
binary32, `are_equal({1,2,3},{1,2,3})` is true and `are_equal({1,2,3},{1,2,4})`
is false (distinct objects). -/
theorem are_equal_iff :
    (∀ (F : Type) (S : Scalar F) (σ : Store F) (a b : Nat),
      ∃ r, idlib_vector_3_f32_are_equal S σ (some a) (some b) = some r ∧
        (r = true ↔ (a = b ∨ (S.eq (σ.read a 0) (σ.read b 0) = true ∧
          S.eq (σ.read a 1) (σ.read b 1) = true ∧
          S.eq (σ.read a 2) (σ.read b 2) = true)))) ∧
    idlib_vector_3_f32_are_equal binary32 (Store.ofList [vec 1 2 3, vec 1 2 3, vec 1 2 4])
      (some 0) (some 1) = some true ∧
    idlib_vector_3_f32_are_equal binary32 (Store.ofList [vec 1 2 3, vec 1 2 3, vec 1 2 4])
      (some 0) (some 2) = some false := by
  refine ⟨?_, by decide, by decide⟩
  intro F S σ a b
  by_cases hab : a = b
  · exact ⟨true, by simp [idlib_vector_3_f32_are_equal, hab], by simp [hab]⟩
  · refine ⟨S.eq (σ.read a 0) (σ.read b 0) && S.eq (σ.read a 1) (σ.read b 1)
        && S.eq (σ.read a 2) (σ.read b 2), ?_, ?_⟩
    · simp only [idlib_vector_3_f32_are_equal, if_neg hab]
    · simp [hab, and_assoc]

/-- C6: for every scalar arithmetic, store and non-null `v`,
`idlib_vector_3_f32_get_squared_length` returns `(e0*e0 + e1*e1) + e2*e2`: the
three squares of the components of `v`, summed left to right in this order.  The
order is observable in binary32: for `v = {4096, 1, 1}` the function returns
`2^24`, while `e0*e0 + (e1*e1 + e2*e2)` is `2^24 + 2`. -/
theorem get_squared_length_value :
    (∀ (F : Type) (S : Scalar F) (σ : Store F) (v : Nat),
      idlib_vector_3_f32_get_squared_length S σ (some v)
        = some (S.add (S.add (S.mul (σ.read v 0) (σ.read v 0))
            (S.mul (σ.read v 1) (σ.read v 1))) (S.mul (σ.read v 2) (σ.read v 2)))) ∧
    idlib_vector_3_f32_get_squared_length binary32 (Store.ofList [vec 4096 1 1]) (some 0)
      = some (F32.ofNat 16777216) ∧
    F32.add (F32.mul (F32.ofNat 4096) (F32.ofNat 4096))
        (F32.add (F32.mul (F32.ofNat 1) (F32.ofNat 1)) (F32.mul (F32.ofNat 1) (F32.ofNat 1)))
      = F32.ofNat 16777218 ∧
    F32.ofNat 16777216 ≠ F32.ofNat 16777218 := by
  refine ⟨fun F S σ v => rfl, ?_, ?_, ?_⟩
  · decide
  · decide
  · decide

/-- C10: for every store (so whatever the target held before), non-null target
and scalars `x`, `y`, `z`, `idlib_vector_3_f32_set` returns, and afterwards the
components of the target are exactly `e[0] = x`, `e[1] = y`, `e[2] = z`. -/
theorem set_components {F : Type} (σ : Store F) (t : Nat) (x y z : F) :
    ∃ σ', idlib_vector_3_f32_set σ (some t) x y z = some σ' ∧
      σ'.read t 0 = x ∧ σ'.read t 1 = y ∧ σ'.read t 2 = z := by
  refine ⟨_, rfl, ?_, ?_, ?_⟩ <;> simp [Store.read_write]

/-! ## Signs and comparison in binary32 -/

theorem F32.eq_self (x : F32) : F32.eq x x = !x.isNaN := by
  cases x <;> simp [F32.eq, F32.isNaN]

theorem F32.round_isNonNeg (n sh : Nat) : (F32.round false n sh).isNonNeg = true := by
  unfold F32.round
  simp only
  split_ifs <;> rfl

theorem F32.mul_self_isNonNeg (x : F32) (hx : x.isFinite = true) :
    (F32.mul x x).isNonNeg = true := by
  cases x with
  | nan => simp [F32.isFinite] at hx
  | inf s => simp [F32.isFinite] at hx
  | fin s k => simp [F32.mul, F32.round_isNonNeg]

theorem F32.add_isNonNeg (x y : F32) (hx : x.isNonNeg = true) (hy : y.isNonNeg = true) :
    (F32.add x y).isNonNeg = true := by
  cases x with
  | nan => simp [F32.isNonNeg] at hx
  | inf s =>
    cases s
    · cases y with
      | nan => simp [F32.isNonNeg] at hy
      | inf s' => cases s' <;> simp_all [F32.isNonNeg, F32.add]
      | fin s' k' => simp [F32.isNonNeg, F32.add]
    · simp [F32.isNonNeg] at hx
  | fin s k =>
    cases s
    · cases y with
      | nan => simp [F32.isNonNeg] at hy
      | inf s' => cases s' <;> simp_all [F32.isNonNeg, F32.add]
      | fin s' k' =>
        cases s'
        · simp [F32.add, F32.round_isNonNeg]
        · simp [F32.isNonNeg] at hy
    · simp [F32.isNonNeg] at hx

theorem F32.zero_le_of_isNonNeg (x : F32) (hx : x.isNonNeg = true) :
    F32.le F32.zero x = true := by
  cases x with
  | nan => simp [F32.isNonNeg] at hx
  | inf s => cases s <;> simp_all [F32.isNonNeg, F32.le, F32.zero]
  | fin s k => cases s <;> simp_all [F32.isNonNeg, F32.le, F32.zero]

theorem get_squared_length_isNonNeg (σ : Store F32) (v : Nat)
    (hfin : ∀ i : Fin 3, (σ.read v i).isFinite = true) :
    ∃ q, idlib_vector_3_f32_get_squared_length binary32 σ (some v) = some q ∧
      q.isNonNeg = true := by
  refine ⟨_, rfl, ?_⟩
  exact F32.add_isNonNeg _ _
    (F32.add_isNonNeg _ _ (F32.mul_self_isNonNeg _ (hfin 0)) (F32.mul_self_isNonNeg _ (hfin 1)))
    (F32.mul_self_isNonNeg _ (hfin 2))

/-! ## Exact additions -/

theorem F32.round_of_representable (s : Bool) (n k : Nat) (hn : n = k)
    (hk : F32.Representable k) : F32.round s n 0 = F32.fin s k := by
  subst hn
  obtain ⟨hlt, hmod⟩ := hk
  have hd : max 0 (bitLength n - 24) = bitLength n - 24 := by simp
  have hpos : 0 < 2 ^ (bitLength n - 24) := Nat.pow_pos (by norm_num)
  have hdiv : n / 2 ^ (bitLength n - 24) * 2 ^ (bitLength n - 24) = n :=
    Nat.div_mul_cancel (Nat.dvd_of_mod_eq_zero hmod)
  unfold F32.round
  simp only [hd, hmod, Nat.sub_zero, Nat.mul_zero]
  have h1 : ¬ (2 ^ (bitLength n - 24) < 0 ∨
      0 = 2 ^ (bitLength n - 24) ∧ n / 2 ^ (bitLength n - 24) % 2 = 1) := by
    rintro (h | ⟨h, _⟩) <;> omega
  rw [if_neg h1, hdiv, if_pos hlt]

theorem F32.addExact_fin (s s' : Bool) (k k' : Nat)
    (h : F32.addExact (F32.fin s k) (F32.fin s' k') = true) :
    ∃ s'' k'', F32.add (F32.fin s k) (F32.fin s' k') = F32.fin s'' k'' ∧
      (if s'' then -(k'' : Int) else (k'' : Int))
        = (if s then -(k : Int) else (k : Int)) + (if s' then -(k' : Int) else (k' : Int)) := by
  unfold F32.addExact at h
  generalize F32.add (F32.fin s k) (F32.fin s' k') = z at h
  cases z with
  | nan => simp [F32.value] at h
  | inf s'' => simp [F32.value] at h
  | fin s'' k'' => exact ⟨s'', k'', rfl, by simpa [F32.value] using h⟩

theorem F32.sub_add_cancel_of_exact (x y : F32) (hx : x.Valid)
    (h : F32.addExact x y = true) : F32.eq (F32.sub (F32.add x y) y) x = true := by
  cases x with
  | nan => simp [F32.addExact, F32.value] at h
  | inf s => simp [F32.addExact, F32.value] at h
  | fin s k =>
    cases y with
    | nan => simp [F32.addExact, F32.value] at h
    | inf s' => simp [F32.addExact, F32.value] at h
    | fin s' k' =>
      have hk : F32.Representable k := hx
      obtain ⟨s'', k'', hz, hval⟩ := F32.addExact_fin s s' k k' h
      rw [hz]
      clear hz h hx
      cases s <;> cases s' <;> cases s'' <;>
        simp only [F32.sub, F32.neg, F32.add, Bool.not_true, Bool.not_false, if_true,
          if_false, Bool.false_eq_true, Bool.true_eq_false, reduceCtorEq] at hval ⊢ <;>
        (try split_ifs) <;>
        first
          | omega
          | (rw [F32.round_of_representable _ _ k (by omega) hk]
             simp only [F32.eq, beq_self_eq_true, Bool.and_true, Bool.or_eq_true,
               Bool.and_eq_true, beq_iff_eq, decide_eq_true_eq, Bool.true_or, Bool.or_true,
               or_true, true_or, beq_true, beq_false, Bool.not_eq_true', Bool.false_eq_true,
               Bool.true_eq_false, false_and, and_false, or_false, false_or,
               Bool.and_self, and_self, reduceCtorEq]
             try omega)
          | (simp [F32.eq]; omega)

/-! ## Binary digits and the integer square root -/

theorem lt_two_pow_bitLengthFuel (fuel : Nat) :
    ∀ n, n ≤ fuel → n < 2 ^ bitLengthFuel fuel n := by
  induction fuel with
  | zero => intro n hn; simp [bitLengthFuel]; omega
  | succ f ih =>
    intro n hn
    unfold bitLengthFuel
    split_ifs with h0
    · subst h0; simp
    · have := ih (n / 2) (by omega)
      rw [pow_succ]
      omega

theorem two_pow_bitLengthFuel_le (fuel : Nat) :
    ∀ n, n ≤ fuel → n ≠ 0 → 2 ^ (bitLengthFuel fuel n - 1) ≤ n := by
  induction fuel with
  | zero => intro n hn h0; omega
  | succ f ih =>
    intro n hn h0
    unfold bitLengthFuel
    rw [if_neg h0]
    by_cases h1 : n / 2 = 0
    · have : bitLengthFuel f (n / 2) = 0 := by
        rw [h1]; cases f <;> simp [bitLengthFuel]
      rw [this]; simp; omega
    · have := ih (n / 2) (by omega) h1
      have hpos : 0 < bitLengthFuel f (n / 2) := by
        cases f with
        | zero => omega
        | succ g => unfold bitLengthFuel; rw [if_neg h1]; omega
      have e : bitLengthFuel f (n / 2) + 1 - 1 = (bitLengthFuel f (n / 2) - 1) + 1 := by omega
      rw [e, pow_succ]
      omega

theorem lt_two_pow_bitLength (n : Nat) : n < 2 ^ bitLength n :=
  lt_two_pow_bitLengthFuel n n le_rfl

theorem two_pow_bitLength_le (n : Nat) (h : n ≠ 0) : 2 ^ (bitLength n - 1) ≤ n :=
  two_pow_bitLengthFuel_le n n le_rfl h

theorem isqrtBits_spec (n : Nat) :
    ∀ i r, r * r ≤ n → n < (r + 2 ^ i) * (r + 2 ^ i) →
      isqrtBits n i r * isqrtBits n i r ≤ n ∧
        n < (isqrtBits n i r + 1) * (isqrtBits n i r + 1) := by
  intro i
  induction i with
  | zero => intro r h1 h2; simpa [isqrtBits] using ⟨h1, h2⟩
  | succ i ih =>
    intro r h1 h2
    unfold isqrtBits
    split_ifs with hc
    · apply ih _ hc
      have : r + 2 ^ i + 2 ^ i = r + 2 ^ (i + 1) := by rw [pow_succ]; omega
      rw [this]; exact h2
    · exact ih _ h1 (by omega)

theorem isqrt_spec (n : Nat) :
    isqrt n * isqrt n ≤ n ∧ n < (isqrt n + 1) * (isqrt n + 1) := by
  unfold isqrt
  apply isqrtBits_spec n _ 0 (by simp)
  have h := lt_two_pow_bitLength n
  have hle : bitLength n ≤ (bitLength n / 2 + 1) + (bitLength n / 2 + 1) := by omega
  have h2 : 2 ^ bitLength n ≤ 2 ^ ((bitLength n / 2 + 1) + (bitLength n / 2 + 1)) :=
    Nat.pow_le_pow_right (by norm_num) hle
  rw [pow_add] at h2
  simpa using lt_of_lt_of_le h h2

/-! ## The operations stay within binary32 -/

theorem bitLength_le_of_lt_two_pow (k m : Nat) (h : k < 2 ^ m) : bitLength k ≤ m := by
  by_cases h0 : k = 0
  · subst h0; simp [bitLength, bitLengthFuel]
  · by_contra hc
    have h1 := two_pow_bitLength_le k h0
    have h2 : 2 ^ m ≤ 2 ^ (bitLength k - 1) := Nat.pow_le_pow_right (by norm_num) (by omega)
    omega

theorem F32.representable_mul_two_pow (q e : Nat) (hq : q ≤ 2 ^ 24)
    (hlt : q * 2 ^ e < 2 ^ 277) : F32.Representable (q * 2 ^ e) := by
  refine ⟨hlt, ?_⟩
  apply Nat.mod_eq_zero_of_dvd
  rcases Nat.lt_or_ge q (2 ^ 24) with hq' | hq'
  · have hk : q * 2 ^ e < 2 ^ (24 + e) := by
      rw [pow_add]; exact Nat.mul_lt_mul_of_pos_right hq' (Nat.pow_pos (by norm_num))
    have hb := bitLength_le_of_lt_two_pow _ _ hk
    exact Dvd.dvd.mul_left (pow_dvd_pow 2 (by omega)) q
  · have hq2 : q = 2 ^ 24 := le_antisymm hq hq'
    subst hq2
    rw [← pow_add] at hlt ⊢
    have hk : 2 ^ (24 + e) < 2 ^ (25 + e) := Nat.pow_lt_pow_right (by norm_num) (by omega)
    have hb := bitLength_le_of_lt_two_pow _ _ hk
    exact pow_dvd_pow 2 (by omega)

theorem F32.round_valid (s : Bool) (n sh : Nat) : (F32.round s n sh).Valid := by
  unfold F32.round
  simp only
  have hq : n / 2 ^ max sh (bitLength n - 24) < 2 ^ 24 := by
    rw [Nat.div_lt_iff_lt_mul (Nat.pow_pos (by norm_num)), ← pow_add]
    exact lt_of_lt_of_le (lt_two_pow_bitLength n)
      (Nat.pow_le_pow_right (by norm_num) (by omega))
  split_ifs with h1 h2 h2
  · exact F32.representable_mul_two_pow _ _ (by omega) h2
  · trivial
  · exact F32.representable_mul_two_pow _ _ (by omega) h2
  · trivial

theorem F32.add_valid (x y : F32) : (F32.add x y).Valid := by
  cases x with
  | nan => trivial
  | inf s =>
    cases y with
    | nan => trivial
    | inf s' => simp only [F32.add]; split_ifs <;> trivial
    | fin s' k' => trivial
  | fin s k =>
    cases y with
    | nan => trivial
    | inf s' => trivial
    | fin s' k' =>
      simp only [F32.add]
      split_ifs
      · exact F32.round_valid _ _ _
      · exact F32.round_valid _ _ _
      · exact F32.round_valid _ _ _
      · exact (by decide : F32.Representable 0)

theorem F32.sub_valid (x y : F32) : (F32.sub x y).Valid :=
  F32.add_valid _ _

theorem F32.mul_valid (x y : F32) : (F32.mul x y).Valid := by
  cases x with
  | nan => trivial
  | inf s =>
    cases y with
    | nan => trivial
    | inf s' => trivial
    | fin s' k' => simp only [F32.mul]; split_ifs <;> trivial
  | fin s k =>
    cases y with
    | nan => trivial
    | inf s' => simp only [F32.mul]; split_ifs <;> trivial
    | fin s' k' => exact F32.round_valid _ _ _

theorem F32.sqrt_valid (x : F32) : (F32.sqrt x).Valid := by
  cases x with
  | nan => trivial
  | inf s => simp only [F32.sqrt]; split_ifs <;> trivial
  | fin s k =>
    simp only [F32.sqrt]
    split_ifs
    · exact (by decide : F32.Representable 0)
    · trivial
    · exact F32.round_valid _ _ _
    · exact F32.round_valid _ _ _

/-! ## Accuracy of the square root -/

theorem sq_near (R s N : ℤ) (hs : 2 ^ 74 ≤ s) (h1 : s * s ≤ N) (h2 : N < (s + 1) * (s + 1))
    (ha : |R - s| * 2 ^ 26 ≤ 5 * s) : |R * R - N| * 2 ^ 22 ≤ N := by
  obtain ⟨δ, rfl⟩ : ∃ δ, R = s + δ := ⟨R - s, by ring⟩
  have hδ : |δ| * 2 ^ 26 ≤ 5 * s := by simpa using ha
  have hδ1 : δ * 2 ^ 26 ≤ 5 * s :=
    le_trans (mul_le_mul_of_nonneg_right (le_abs_self δ) (by norm_num)) hδ
  have hδ2 : -(5 * s) ≤ δ * 2 ^ 26 := by
    have := mul_le_mul_of_nonneg_right (neg_abs_le δ) (show (0:ℤ) ≤ 2 ^ 26 by norm_num)
    linarith
  have hs0 : (0 : ℤ) ≤ s := le_trans (by norm_num) hs
  have P1 : 0 ≤ s * (5 * s - δ * 2 ^ 26) := mul_nonneg hs0 (by linarith)
  have P1' : 0 ≤ s * (5 * s + δ * 2 ^ 26) := mul_nonneg hs0 (by linarith)
  have P2 : 0 ≤ (5 * s - δ * 2 ^ 26) * (5 * s + δ * 2 ^ 26) :=
    mul_nonneg (by linarith) (by linarith)
  have P3 : 0 ≤ s * (s - 2 ^ 74) := mul_nonneg hs0 (by linarith)
  have P4 : 0 ≤ δ * δ := mul_self_nonneg δ
  have hpos : (0 : ℤ) ≤ 2 ^ 22 := by norm_num
  rw [← abs_of_nonneg hpos, ← abs_mul, abs_le]
  constructor
  · nlinarith
  · nlinarith

theorem F32.sqrt_fin_spec (K : Nat) (hK0 : K ≠ 0) (hK : K < 2 ^ 277) :
    ∃ R, F32.sqrt (F32.fin false K) = F32.fin false R ∧
      |(R : ℤ) * (R : ℤ) - (K : ℤ) * 2 ^ 149| * 2 ^ 22 ≤ (K : ℤ) * 2 ^ 149 := by
  simp only [F32.sqrt, if_neg hK0, Bool.false_eq_true, if_false]
  generalize hN : K * 2 ^ 149 = N
  have hNZ : (K : ℤ) * 2 ^ 149 = (N : ℤ) := by subst hN; push_cast; ring
  rw [hNZ]
  have hNlo : 2 ^ 149 ≤ N := by omega
  have hNhi : N < 2 ^ 426 := by omega
  obtain ⟨hs1, hs2⟩ := isqrt_spec N
  generalize isqrt N = s at hs1 hs2 ⊢
  have hs74 : 2 ^ 74 ≤ s := by
    by_contra hc
    have h : s + 1 ≤ 2 ^ 74 := by omega
    have := Nat.mul_le_mul h h
    omega
  have hs213 : s < 2 ^ 213 := by
    by_contra hc
    have h : 2 ^ 213 ≤ s := by omega
    have := Nat.mul_le_mul h h
    omega
  generalize he : (if s * s = N then 0 else 1) = e
  have he1 : e ≤ 1 := by subst he; split_ifs <;> omega
  generalize hn : 2 * s + e = n
  have hL : 76 ≤ bitLength n := by
    by_contra hc
    have h1 : 2 ^ bitLength n ≤ 2 ^ 75 := Nat.pow_le_pow_right (by norm_num) (by omega)
    have h2 := lt_two_pow_bitLength n
    omega
  have hn0 : n ≠ 0 := by omega
  have hlow := two_pow_bitLength_le n hn0
  unfold F32.round
  have hd : max 1 (bitLength n - 24) = bitLength n - 24 := max_eq_right (by omega)
  simp only [hd]
  obtain ⟨d, hdd⟩ : ∃ d, bitLength n - 24 = d + 1 := ⟨bitLength n - 25, by omega⟩
  have hbl : bitLength n - 1 = d + 1 + 23 := by omega
  rw [hbl, pow_add] at hlow
  rw [hdd] at *
  simp only [Nat.add_sub_cancel]
  have hD : 2 ^ (d + 1) = 2 ^ d * 2 := pow_succ 2 d
  rw [hD] at hlow ⊢
  have hH : 0 < 2 ^ d := Nat.pow_pos (by norm_num)
  generalize 2 ^ d = H at hlow hH ⊢
  have hqr := Nat.div_add_mod n (H * 2)
  have hr := Nat.mod_lt n (show 0 < H * 2 by omega)
  generalize n / (H * 2) = q at hqr ⊢
  generalize n % (H * 2) = r at hqr hr ⊢
  have hX : H * 2 * q = 2 * (q * H) := by ring
  have hY : (q + 1) * H = q * H + H := by ring
  rw [hX] at hqr
  split_ifs with hup hlt hlt
  · refine ⟨_, rfl, ?_⟩
    rw [hY]
    generalize q * H = X at hqr ⊢
    apply sq_near _ (s : ℤ) _ (by exact_mod_cast hs74) (by exact_mod_cast hs1)
      (by exact_mod_cast hs2)
    rcases abs_cases (((X + H : ℕ) : ℤ) - (s : ℤ)) with ⟨h, _⟩ | ⟨h, _⟩ <;> rw [h] <;>
      push_cast <;> omega
  · exfalso
    rw [hY] at hlt
    generalize q * H = X at hqr hlt
    omega
  · refine ⟨_, rfl, ?_⟩
    generalize q * H = X at hqr ⊢
    apply sq_near _ (s : ℤ) _ (by exact_mod_cast hs74) (by exact_mod_cast hs1)
      (by exact_mod_cast hs2)
    rcases abs_cases (((X : ℕ) : ℤ) - (s : ℤ)) with ⟨h, _⟩ | ⟨h, _⟩ <;> rw [h] <;>
      push_cast <;> omega
  · exfalso
    generalize q * H = X at hqr hlt
    omega

theorem F32.round_bounded (s s' : Bool) (n sh k : Nat)
    (h : F32.round s n sh = F32.fin s' k) : k < 2 ^ 277 := by
  unfold F32.round at h
  simp only at h
  split_ifs at h with h1 h2 h2
  · cases h; exact h2
  · cases h; exact h2

theorem F32.add_bounded (x y : F32) (s : Bool) (k : Nat)
    (h : F32.add x y = F32.fin s k) : k < 2 ^ 277 := by
  cases x with
  | nan => simp [F32.add] at h
  | inf sx =>
    cases y with
    | nan => simp [F32.add] at h
    | inf sy => simp only [F32.add] at h; split_ifs at h
    | fin sy ky => simp [F32.add] at h
  | fin sx kx =>
    cases y with
    | nan => simp [F32.add] at h
    | inf sy => simp [F32.add] at h
    | fin sy ky =>
      simp only [F32.add] at h
      split_ifs at h
      · exact F32.round_bounded _ _ _ _ _ h
      · exact F32.round_bounded _ _ _ _ _ h
      · exact F32.round_bounded _ _ _ _ _ h
      · cases h; norm_num

theorem F32.sqrt_of_isNonNeg (q : F32) (hq : q.isNonNeg = true)
    (hb : ∀ s k, q = F32.fin s k → k < 2 ^ 277) :
    (F32.sqrt q).isNonNeg = true ∧ F32.squareNear (F32.sqrt q) q := by
  cases q with
  | nan => simp [F32.isNonNeg] at hq
  | inf s =>
    cases s
    · simp [F32.sqrt, F32.isNonNeg, F32.squareNear]
    · simp [F32.isNonNeg] at hq
  | fin s K =>
    cases s
    · by_cases hK0 : K = 0
      · subst hK0
        simp [F32.sqrt, F32.isNonNeg, F32.squareNear]
      · obtain ⟨R, hR, hnear⟩ := F32.sqrt_fin_spec K hK0 (hb _ _ rfl)
        rw [hR]
        exact ⟨rfl, hnear⟩
    · simp [F32.isNonNeg] at hq

/-! ## NaN, negative values and zero results -/

theorem F32.add_nan_right (x : F32) : F32.add x F32.nan = F32.nan := by
  cases x <;> rfl

theorem F32.sqrt_of_lt_zero (q : F32) (h : F32.lt q F32.zero = true) :
    F32.sqrt q = F32.nan := by
  cases q with
  | nan => simp [F32.lt, F32.le] at h
  | inf s => cases s <;> simp_all [F32.lt, F32.le, F32.eq, F32.zero, F32.sqrt]
  | fin s k =>
    cases s
    · simp [F32.lt, F32.le, F32.eq, F32.zero] at h
    · have hk : k ≠ 0 := by
        intro hk; subst hk; simp [F32.lt, F32.le, F32.eq, F32.zero] at h
      simp [F32.sqrt, hk]

theorem F32.mul_self_nonneg_or_nan (x : F32) :
    (F32.mul x x).isNonNeg = true ∨ F32.mul x x = F32.nan := by
  cases x with
  | nan => exact Or.inr rfl
  | inf s => cases s <;> exact Or.inl rfl
  | fin s k => exact Or.inl (F32.mul_self_isNonNeg _ rfl)

theorem F32.add_nonneg_or_nan (x y : F32)
    (hx : x.isNonNeg = true ∨ x = F32.nan) (hy : y.isNonNeg = true ∨ y = F32.nan) :
    (F32.add x y).isNonNeg = true ∨ F32.add x y = F32.nan := by
  rcases hx with hx | hx
  · rcases hy with hy | hy
    · exact Or.inl (F32.add_isNonNeg x y hx hy)
    · subst hy; exact Or.inr (F32.add_nan_right x)
  · subst hx; exact Or.inr rfl

theorem F32.not_lt_zero_of_nonneg_or_nan (q : F32)
    (h : q.isNonNeg = true ∨ q = F32.nan) : F32.lt q F32.zero = false := by
  rcases h with h | h
  · cases q with
    | nan => simp [F32.isNonNeg] at h
    | inf s => cases s <;> simp_all [F32.isNonNeg, F32.lt, F32.le, F32.eq, F32.zero]
    | fin s k =>
      cases s
      · by_cases hk : k = 0 <;> simp [F32.lt, F32.le, F32.eq, F32.zero, hk]
      · simp [F32.isNonNeg] at h
  · subst h; rfl

theorem get_squared_length_nan (σ : Store F32) (v : Nat) (h : σ.hasNaN v = true) :
    idlib_vector_3_f32_get_squared_length binary32 σ (some v) = some F32.nan := by
  have hn : ∀ x : F32, x.isNaN = true → x = F32.nan := by
    intro x hx; cases x <;> simp_all [F32.isNaN]
  simp only [Store.hasNaN, Bool.or_eq_true] at h
  simp only [idlib_vector_3_f32_get_squared_length, binary32, Option.some.injEq]
  rcases h with (h | h) | h
  · rw [hn _ h]; rfl
  · rw [hn _ h]
    have : F32.mul F32.nan F32.nan = F32.nan := rfl
    rw [this, F32.add_nan_right]; rfl
  · rw [hn _ h]
    have : F32.mul F32.nan F32.nan = F32.nan := rfl
    rw [this, F32.add_nan_right]

theorem F32.eq_zero_iff (x : F32) : F32.eq x F32.zero = true ↔ ∃ s, x = F32.fin s 0 := by
  cases x with
  | nan => simp [F32.eq, F32.zero]
  | inf s => simp [F32.eq, F32.zero]
  | fin s k =>
    by_cases hk : k = 0
    · subst hk; simp [F32.eq, F32.zero]
    · simp [F32.eq, F32.zero, hk]

theorem F32.round_eq_zero_iff (s : Bool) (n sh : Nat) :
    F32.eq (F32.round s n sh) F32.zero = true ↔ 2 * n ≤ 2 ^ sh := by
  have hpos : 0 < 2 ^ sh := Nat.pow_pos (by norm_num)
  by_cases h : 2 * n ≤ 2 ^ sh
  · simp only [h, iff_true]
    have hn : n < 2 ^ sh := by omega
    have hb := bitLength_le_of_lt_two_pow n sh hn
    have hd : max sh (bitLength n - 24) = sh := max_eq_left (by omega)
    have hc : ¬ (2 ^ sh < 2 * n ∨ (2 * n = 2 ^ sh ∧ 0 % 2 = 1)) := by omega
    unfold F32.round
    simp only [hd, Nat.div_eq_of_lt hn, Nat.mod_eq_of_lt hn, if_neg hc]
    simp [F32.eq, F32.zero]
  · simp only [h, iff_false]
    unfold F32.round
    simp only
    generalize hd : max sh (bitLength n - 24) = d
    have hdpos : 0 < 2 ^ d := Nat.pow_pos (by norm_num)
    have hq : 1 ≤ (if 2 ^ d < 2 * (n % 2 ^ d) ∨ (2 * (n % 2 ^ d) = 2 ^ d ∧ n / 2 ^ d % 2 = 1)
        then n / 2 ^ d + 1 else n / 2 ^ d) := by
      split_ifs with hc
      · exact Nat.le_add_left 1 _
      · apply (Nat.le_div_iff_mul_le hdpos).mpr
        rw [Nat.one_mul]
        rcases Nat.lt_or_ge sh (bitLength n - 24) with hlt | hge
        · have hd' : d = bitLength n - 24 := by rw [← hd]; exact max_eq_right (by omega)
          have hn0 : n ≠ 0 := by
            intro h0; subst h0; simp [bitLength, bitLengthFuel] at hlt
          have h1 := two_pow_bitLength_le n hn0
          have h2 : 2 ^ d ≤ 2 ^ (bitLength n - 1) :=
            Nat.pow_le_pow_right (by norm_num) (by omega)
          omega
        · have hd' : d = sh := by rw [← hd]; exact max_eq_left hge
          subst hd'
          by_contra hlt
          have hr : n % 2 ^ d = n := Nat.mod_eq_of_lt (by omega)
          rw [hr] at hc
          omega
    generalize (if 2 ^ d < 2 * (n % 2 ^ d) ∨ (2 * (n % 2 ^ d) = 2 ^ d ∧ n / 2 ^ d % 2 = 1)
        then n / 2 ^ d + 1 else n / 2 ^ d) = q' at hq
    have hk : 0 < q' * 2 ^ (d - sh) := Nat.mul_pos hq (Nat.pow_pos (by norm_num))
    split_ifs
    · have hk0 : q' * 2 ^ (d - sh) ≠ 0 := by omega
      simp [F32.eq, F32.zero, hk0]
    · simp [F32.eq, F32.zero]

theorem F32.mul_self_eq_zero_iff (x : F32) (hx : x.isFinite = true) :
    F32.eq (F32.mul x x) F32.zero = true
      ↔ F32.le (F32.abs x) (F32.fin false (2 ^ 74)) = true := by
  cases x with
  | nan => simp [F32.isFinite] at hx
  | inf s => simp [F32.isFinite] at hx
  | fin s k =>
    simp only [F32.mul, F32.round_eq_zero_iff, F32.abs, F32.le, decide_eq_true_eq]
    constructor
    · intro h
      by_contra hc
      have h1 : 2 ^ 74 + 1 ≤ k := by omega
      have := Nat.mul_le_mul h1 h1
      omega
    · intro h
      have := Nat.mul_le_mul h h
      omega

theorem F32.add_eq_zero_iff (x y : F32) (hx : x.isNonNeg = true) (hy : y.isNonNeg = true) :
    F32.eq (F32.add x y) F32.zero = true
      ↔ F32.eq x F32.zero = true ∧ F32.eq y F32.zero = true := by
  cases x with
  | nan => simp [F32.isNonNeg] at hx
  | inf s =>
    cases s
    · cases y with
      | nan => simp [F32.isNonNeg] at hy
      | inf s' => cases s' <;> simp_all [F32.isNonNeg, F32.add, F32.eq, F32.zero]
      | fin s' k' => simp [F32.add, F32.eq, F32.zero]
    · simp [F32.isNonNeg] at hx
  | fin s k =>
    cases s
    · cases y with
      | nan => simp [F32.isNonNeg] at hy
      | inf s' => cases s' <;> simp_all [F32.isNonNeg, F32.add, F32.eq, F32.zero]
      | fin s' k' =>
        cases s'
        · simp only [F32.add, if_true, F32.round_eq_zero_iff, pow_zero]
          simp only [F32.eq, F32.zero]
          simp
          omega
        · simp [F32.isNonNeg] at hy
    · simp [F32.isNonNeg] at hx

/-! ## Claims on the arithmetic -/

/-- C5: let `a` and `b` be two distinct objects holding the same component values
`v`.  Then `idlib_vector_3_f32_are_equal(a, b)` is true if `v` has no NaN component
and false if `v` has at least one NaN component; and with one object passed twice
the result is true whatever the components are. -/
theorem are_equal_same_values (σ : Store F32) (a b : Nat) (hab : a ≠ b)
    (hv : ∀ i : Fin 3, σ.read a i = σ.read b i) :
    idlib_vector_3_f32_are_equal binary32 σ (some a) (some b) = some (!σ.hasNaN a) ∧
    idlib_vector_3_f32_are_equal binary32 σ (some a) (some a) = some true := by
  constructor
  · simp only [idlib_vector_3_f32_are_equal, if_neg hab, ← hv, Store.hasNaN, binary32,
      F32.eq_self]
    simp
  · simp [idlib_vector_3_f32_are_equal]

/-- Witness of C5: two objects `{1,2,3}` at distinct addresses are equal; two
objects `{NaN,2,3}` at distinct addresses are not, and each equals itself. -/
theorem are_equal_same_values_witness :
    (idlib_vector_3_f32_are_equal binary32 (Store.ofList [vec 1 2 3, vec 1 2 3])
        (some 0) (some 1) = some true ∧
      idlib_vector_3_f32_are_equal binary32 (Store.ofList [vec 1 2 3, vec 1 2 3])
        (some 0) (some 0) = some true) ∧
    (idlib_vector_3_f32_are_equal binary32
        (Store.ofList [idlib_vector_3_f32.ofComponents F32.nan (F32.ofNat 2) (F32.ofNat 3),
          idlib_vector_3_f32.ofComponents F32.nan (F32.ofNat 2) (F32.ofNat 3)])
        (some 0) (some 1) = some false ∧
      idlib_vector_3_f32_are_equal binary32
        (Store.ofList [idlib_vector_3_f32.ofComponents F32.nan (F32.ofNat 2) (F32.ofNat 3),
          idlib_vector_3_f32.ofComponents F32.nan (F32.ofNat 2) (F32.ofNat 3)])
        (some 0) (some 0) = some true) :=
  ⟨are_equal_same_values (Store.ofList [vec 1 2 3, vec 1 2 3]) 0 1 (by decide) (by decide),
   are_equal_same_values
    (Store.ofList [idlib_vector_3_f32.ofComponents F32.nan (F32.ofNat 2) (F32.ofNat 3),
      idlib_vector_3_f32.ofComponents F32.nan (F32.ofNat 2) (F32.ofNat 3)])
    0 1 (by decide) (by decide)⟩

/-- C8: for every vector `v` whose three components are finite (neither NaN nor
an infinity), `idlib_vector_3_f32_get_squared_length(v)` returns a value `q` with
`0 <= q` in binary32 (a non-negative finite number or `+Inf`). -/
theorem get_squared_length_nonneg (σ : Store F32) (v : Nat)
    (hfin : ∀ i : Fin 3, (σ.read v i).isFinite = true) :
    ∃ q, idlib_vector_3_f32_get_squared_length binary32 σ (some v) = some q ∧
      F32.le F32.zero q = true := by
  obtain ⟨q, hq, hnn⟩ := get_squared_length_isNonNeg σ v hfin
  exact ⟨q, hq, F32.zero_le_of_isNonNeg q hnn⟩

/-- Witness of C8: the vector `{-3, 4, 2^(-149)}` has finite components and a
squared length `q` with `0 <= q`. -/
theorem get_squared_length_nonneg_witness :
    (∀ i : Fin 3,
      ((Store.ofList [idlib_vector_3_f32.ofComponents (F32.neg (F32.ofNat 3)) (F32.ofNat 4)
        (F32.fin false 1)]).read 0 i).isFinite = true) ∧
    ∃ q, idlib_vector_3_f32_get_squared_length binary32
        (Store.ofList [idlib_vector_3_f32.ofComponents (F32.neg (F32.ofNat 3)) (F32.ofNat 4)
          (F32.fin false 1)]) (some 0) = some q ∧
      F32.le F32.zero q = true :=
  ⟨by decide, get_squared_length_nonneg _ 0 (by decide)⟩

/-- C9, refuted as stated: `a = {1,0,0}` and `b = {2^24,0,0}` are binary32 vectors
with finite components and a finite sum, `t` and `t2` are further objects.  After
`add(t, a, b)` and `subtract(t2, t, b)`, `t2->e[0]` is `0`, which does not compare
equal to `a->e[0] = 1`: the sum `1 + 2^24` is rounded to `2^24`. -/
theorem subtract_after_add_counterexample :
    (∀ i : Fin 3,
      ((Store.ofList [vec 1 0 0, vec 16777216 0 0]).read 0 i).Valid ∧
      ((Store.ofList [vec 1 0 0, vec 16777216 0 0]).read 1 i).Valid ∧
      (F32.add ((Store.ofList [vec 1 0 0, vec 16777216 0 0]).read 0 i)
        ((Store.ofList [vec 1 0 0, vec 16777216 0 0]).read 1 i)).isFinite = true) ∧
    ((idlib_vector_3_f32_add binary32 (Store.ofList [vec 1 0 0, vec 16777216 0 0])
        (some 2) (some 0) (some 1)).bind
      (fun σ₁ => idlib_vector_3_f32_subtract binary32 σ₁ (some 3) (some 2) (some 1))).map
      (fun σ₂ => (σ₂.read 3 0,
        F32.eq (σ₂.read 3 0) ((Store.ofList [vec 1 0 0, vec 16777216 0 0]).read 0 0)))
      = some (F32.ofNat 0, false) := by
  constructor
  · decide
  · decide

/-- C9, amended: let the components of `a` be binary32 numbers, let every
component sum `a[i] + b[i]` be exact (finite operands, and the binary32 sum has
the value of the real sum: no rounding, no overflow), and let `t` not be the
object `b`.  Then `add(t, a, b)` followed by `subtract(t2, t, b)` returns, and
every component of `t2` compares equal (`==`) to the pre-call component of `a`. -/
theorem subtract_after_add_exact (σ : Store F32) (t t2 a b : Nat) (htb : t ≠ b)
    (hva : ∀ i : Fin 3, (σ.read a i).Valid)
    (hex : ∀ i : Fin 3, F32.addExact (σ.read a i) (σ.read b i) = true) :
    ∃ σ₁ σ₂, idlib_vector_3_f32_add binary32 σ (some t) (some a) (some b) = some σ₁ ∧
      idlib_vector_3_f32_subtract binary32 σ₁ (some t2) (some t) (some b) = some σ₂ ∧
      ∀ i : Fin 3, F32.eq (σ₂.read t2 i) (σ.read a i) = true := by
  refine ⟨_, _, add_eq_via_temporary binary32 σ t a b,
    subtract_eq_via_temporary binary32 _ t2 t b, ?_⟩
  intro i
  have h : (subtract_via_temporary binary32 (add_via_temporary binary32 σ t a b) t2 t b).read
      t2 i = F32.sub (F32.add (σ.read a i) (σ.read b i)) (σ.read b i) := by
    simp [subtract_via_temporary, add_via_temporary, Store.read,
      Function.update_noteq (Ne.symm htb), binary32]
  rw [h]
  exact F32.sub_add_cancel_of_exact _ _ (hva i) (hex i)

/-- Witness of C9 (amended): `a = {1,-2,3}`, `b = {4,5,-3}`, with `t` aliasing `a`
and `t2` a further object. -/
theorem subtract_after_add_exact_witness :
    ∃ σ₁ σ₂,
      idlib_vector_3_f32_add binary32
        (Store.ofList [idlib_vector_3_f32.ofComponents (F32.ofNat 1) (F32.neg (F32.ofNat 2))
            (F32.ofNat 3),
          idlib_vector_3_f32.ofComponents (F32.ofNat 4) (F32.ofNat 5) (F32.neg (F32.ofNat 3))])
        (some 0) (some 0) (some 1) = some σ₁ ∧
      idlib_vector_3_f32_subtract binary32 σ₁ (some 2) (some 0) (some 1) = some σ₂ ∧
      ∀ i : Fin 3, F32.eq (σ₂.read 2 i)
        ((Store.ofList [idlib_vector_3_f32.ofComponents (F32.ofNat 1) (F32.neg (F32.ofNat 2))
            (F32.ofNat 3),
          idlib_vector_3_f32.ofComponents (F32.ofNat 4) (F32.ofNat 5)
            (F32.neg (F32.ofNat 3))]).read 0 i) = true :=
  subtract_after_add_exact _ 0 2 0 1 (by decide) (by decide) (by decide)

/-- C7: for every scalar arithmetic, store and non-null `v`,
`idlib_vector_3_f32_get_length(v)` returns the square-root function applied to the
result of `idlib_vector_3_f32_get_squared_length(v)`.  In binary32, for every `v`
with finite components, the result `r` is the non-negative root of the squared
length `q`: `0 <= r`, and the exact square of `r` equals `q` up to the rounding of
the root (relative error at most `2^(-22)`; `r = +Inf` when `q` overflowed to
`+Inf`). -/
theorem get_length_sqrt :
    (∀ (F : Type) (S : Scalar F) (σ : Store F) (v : Nat),
      ∃ q, idlib_vector_3_f32_get_squared_length S σ (some v) = some q ∧
        idlib_vector_3_f32_get_length S σ (some v) = some (S.sqrt q)) ∧
    (∀ (σ : Store F32) (v : Nat), (∀ i : Fin 3, (σ.read v i).isFinite = true) →
      ∃ q r, idlib_vector_3_f32_get_squared_length binary32 σ (some v) = some q ∧
        idlib_vector_3_f32_get_length binary32 σ (some v) = some r ∧
        r = F32.sqrt q ∧ F32.le F32.zero r = true ∧ F32.squareNear r q) := by
  constructor
  · intro F S σ v
    exact ⟨_, rfl, rfl⟩
  · intro σ v hfin
    obtain ⟨q, hq, hnn⟩ := get_squared_length_isNonNeg σ v hfin
    have hb : ∀ s k, q = F32.fin s k → k < 2 ^ 277 := by
      intro s k hk
      simp only [idlib_vector_3_f32_get_squared_length, Option.some.injEq] at hq
      rw [← hq] at hk
      exact F32.add_bounded _ _ s k hk
    obtain ⟨h1, h2⟩ := F32.sqrt_of_isNonNeg q hnn hb
    refine ⟨q, F32.sqrt q, hq, ?_, rfl, F32.zero_le_of_isNonNeg _ h1, h2⟩
    simp only [idlib_vector_3_f32_get_length, hq, Option.map_some']
    rfl

/-- Witness of C7: for `v = {3,4,0}` the squared length is `25` and the length
is `5`. -/
theorem get_length_sqrt_witness :
    (∀ i : Fin 3, ((Store.ofList [vec 3 4 0]).read 0 i).isFinite = true) ∧
    idlib_vector_3_f32_get_squared_length binary32 (Store.ofList [vec 3 4 0]) (some 0)
      = some (F32.ofNat 25) ∧
    idlib_vector_3_f32_get_length binary32 (Store.ofList [vec 3 4 0]) (some 0)
      = some (F32.ofNat 5) ∧
    ∃ q r, idlib_vector_3_f32_get_squared_length binary32 (Store.ofList [vec 3 4 0]) (some 0)
        = some q ∧
      idlib_vector_3_f32_get_length binary32 (Store.ofList [vec 3 4 0]) (some 0) = some r ∧
      r = F32.sqrt q ∧ F32.le F32.zero r = true ∧ F32.squareNear r q :=
  ⟨by decide, by decide, by decide,
    get_length_sqrt.2 (Store.ofList [vec 3 4 0]) 0 (by decide)⟩

/-! ## Frame, delegation and assertions -/

/-- C11: a successful call of `set`, `set_zero`, `add` or `subtract` changes only
the object `target` refers to: every object at another address (the operands
included, when they are not the target) is the same after the call as before; and
a call of `are_equal`, `get_squared_length` or `get_length` leaves every object as
it was. -/
theorem call_frame {F : Type} (S : Scalar F) (σ σ' : Store F) (c : Call F) (r : Result F)
    (hrun : c.run S σ = some (σ', r)) (p : Nat) (hp : c.target ≠ some p) :
    σ' p = σ p := by
  cases c with
  | get_squared_length q =>
    cases q with
    | none => simp [Call.run, idlib_vector_3_f32_get_squared_length] at hrun
    | some q =>
      simp only [Call.run, idlib_vector_3_f32_get_squared_length, Option.map_some',
        Option.some.injEq, Prod.mk.injEq] at hrun
      rw [← hrun.1]
  | get_length q =>
    cases q with
    | none =>
      simp [Call.run, idlib_vector_3_f32_get_length,
        idlib_vector_3_f32_get_squared_length] at hrun
    | some q =>
      simp only [Call.run, idlib_vector_3_f32_get_length,
        idlib_vector_3_f32_get_squared_length, Option.map_some', Option.some.injEq,
        Prod.mk.injEq] at hrun
      rw [← hrun.1]
  | set t x y z =>
    cases t with
    | none => simp [Call.run, idlib_vector_3_f32_set] at hrun
    | some t =>
      have hne : p ≠ t := fun h => hp (by simp [Call.target, h])
      simp only [Call.run, set_eq_update, Option.map_some', Option.some.injEq,
        Prod.mk.injEq] at hrun
      rw [← hrun.1, Function.update_noteq hne]
  | set_zero t =>
    cases t with
    | none => simp [Call.run, idlib_vector_3_f32_set_zero, idlib_vector_3_f32_set] at hrun
    | some t =>
      have hne : p ≠ t := fun h => hp (by simp [Call.target, h])
      simp only [Call.run, idlib_vector_3_f32_set_zero, set_eq_update, Option.map_some',
        Option.some.injEq, Prod.mk.injEq] at hrun
      rw [← hrun.1, Function.update_noteq hne]
  | add t a b =>
    cases t with
    | none => simp [Call.run, idlib_vector_3_f32_add] at hrun
    | some t =>
      cases a with
      | none => simp [Call.run, idlib_vector_3_f32_add] at hrun
      | some a =>
        cases b with
        | none => simp [Call.run, idlib_vector_3_f32_add] at hrun
        | some b =>
          have hne : p ≠ t := fun h => hp (by simp [Call.target, h])
          simp only [Call.run, add_eq_via_temporary, Option.map_some', Option.some.injEq,
            Prod.mk.injEq] at hrun
          rw [← hrun.1]
          simp [add_via_temporary, Function.update_noteq hne]
  | subtract t a b =>
    cases t with
    | none => simp [Call.run, idlib_vector_3_f32_subtract] at hrun
    | some t =>
      cases a with
      | none => simp [Call.run, idlib_vector_3_f32_subtract] at hrun
      | some a =>
        cases b with
        | none => simp [Call.run, idlib_vector_3_f32_subtract] at hrun
        | some b =>
          have hne : p ≠ t := fun h => hp (by simp [Call.target, h])
          simp only [Call.run, subtract_eq_via_temporary, Option.map_some',
            Option.some.injEq, Prod.mk.injEq] at hrun
          rw [← hrun.1]
          simp [subtract_via_temporary, Function.update_noteq hne]
  | are_equal a b =>
    cases a with
    | none => simp [Call.run, idlib_vector_3_f32_are_equal] at hrun
    | some a =>
      cases b with
      | none => simp [Call.run, idlib_vector_3_f32_are_equal] at hrun
      | some b =>
        simp only [Call.run, idlib_vector_3_f32_are_equal] at hrun
        split_ifs at hrun <;>
          simp only [Option.map_some', Option.some.injEq, Prod.mk.injEq] at hrun <;>
          rw [← hrun.1]

/-- Witness of C11: `add(a, a, b)` with `a = {1,2,3}` at address 0 and
`b = {4,5,6}` at address 1 succeeds, leaves `b` as it was and writes `5` to
`a->e[0]`. -/
theorem call_frame_witness :
    ∃ σ' r, (Call.add (some 0) (some 0) (some 1)).run binary32
        (Store.ofList [vec 1 2 3, vec 4 5 6]) = some (σ', r) ∧
      σ' 1 = (Store.ofList [vec 1 2 3, vec 4 5 6]) 1 ∧ σ'.read 0 0 = F32.ofNat 5 :=
  ⟨_, _, rfl,
    call_frame binary32 (Store.ofList [vec 1 2 3, vec 4 5 6]) _
      (Call.add (some 0) (some 0) (some 1)) _ rfl 1 (by decide),
    by decide⟩

/-- C12: `idlib_vector_3_f32_set_zero(target)` is
`idlib_vector_3_f32_set(target, 0.f, 0.f, 0.f)`: for every store and pointer
(`NULL` included) both yield the same outcome, and for a non-null target both
return the same store, in which the three components of the target are `0.0`
(positive zero in binary32). -/
theorem set_zero_eq_set :
    (∀ (F : Type) (S : Scalar F) (σ : Store F) (target : Ptr),
      idlib_vector_3_f32_set_zero S σ target
        = idlib_vector_3_f32_set σ target S.zero S.zero S.zero) ∧
    (∀ (F : Type) (S : Scalar F) (σ : Store F) (t : Nat),
      ∃ σ', idlib_vector_3_f32_set_zero S σ (some t) = some σ' ∧
        idlib_vector_3_f32_set σ (some t) S.zero S.zero S.zero = some σ' ∧
        ∀ i : Fin 3, σ'.read t i = S.zero) ∧
    binary32.zero = F32.fin false 0 := by
  refine ⟨fun F S σ target => rfl, ?_, rfl⟩
  intro F S σ t
  refine ⟨_, rfl, rfl, ?_⟩
  intro i
  fin_cases i <;> simp [Store.read_write]

/-- C16: in a debug build a call of any of the seven functions fails (an
assertion aborts it) if and only if one of its reference arguments is `NULL`;
with non-null arguments it succeeds whatever the components are.  This includes
`get_length` and `set_zero`, which assert through the function they call, and
`are_equal(NULL, NULL)`, which fails although both pointers are equal.  All
seven calls succeed on an object `{NaN, +Inf, -0.0}`. -/
theorem assertion_iff_null :
    (∀ (F : Type) (S : Scalar F) (σ : Store F) (c : Call F),
      c.run S σ = none ↔ none ∈ c.pointers) ∧
    (∀ (F : Type) (S : Scalar F) (σ : Store F),
      idlib_vector_3_f32_are_equal S σ none none = none ∧
      idlib_vector_3_f32_get_length S σ none = none ∧
      idlib_vector_3_f32_set_zero S σ none = none) ∧
    (∀ c ∈ [Call.get_squared_length (some 0), Call.get_length (some 0),
        Call.set (some 0) F32.nan (F32.inf true) (F32.fin true 0), Call.set_zero (some 0),
        Call.add (some 0) (some 0) (some 0), Call.subtract (some 0) (some 0) (some 0),
        Call.are_equal (some 0) (some 1)],
      (Call.run binary32
        (Store.ofList [idlib_vector_3_f32.ofComponents F32.nan (F32.inf false)
          (F32.fin true 0)]) c).isSome = true) := by
  refine ⟨?_, fun F S σ => ⟨rfl, rfl, rfl⟩, by decide⟩
  intro F S σ c
  cases c with
  | get_squared_length q =>
    cases q <;> simp [Call.run, Call.pointers, idlib_vector_3_f32_get_squared_length]
  | get_length q =>
    cases q <;> simp [Call.run, Call.pointers, idlib_vector_3_f32_get_length,
      idlib_vector_3_f32_get_squared_length]
  | set t x y z =>
    cases t <;> simp [Call.run, Call.pointers, idlib_vector_3_f32_set]
  | set_zero t =>
    cases t <;> simp [Call.run, Call.pointers, idlib_vector_3_f32_set_zero,
      idlib_vector_3_f32_set]
  | add t a b =>
    cases t <;> cases a <;> cases b <;>
      simp [Call.run, Call.pointers, idlib_vector_3_f32_add]
  | subtract t a b =>
    cases t <;> cases a <;> cases b <;>
      simp [Call.run, Call.pointers, idlib_vector_3_f32_subtract]
  | are_equal a b =>
    cases a <;> cases b <;>
      simp [Call.run, Call.pointers, idlib_vector_3_f32_are_equal]
    split_ifs <;> simp

/-! ## Scenarios and algebraic properties in binary32 -/

/-- C13: for every store (whatever `v` held before) and non-null `v`,
`set_zero(v)` followed by `get_squared_length(v)` returns exactly `0.0` (positive
zero), and `get_length(v)` then returns `0.0`; the same values are returned for
an object `v = {0,0,0}`. -/
theorem set_zero_squared_length :
    (∀ (σ : Store F32) (v : Nat),
      (idlib_vector_3_f32_set_zero binary32 σ (some v)).bind
          (fun σ' => idlib_vector_3_f32_get_squared_length binary32 σ' (some v))
        = some (F32.fin false 0) ∧
      (idlib_vector_3_f32_set_zero binary32 σ (some v)).bind
          (fun σ' => idlib_vector_3_f32_get_length binary32 σ' (some v))
        = some (F32.fin false 0)) ∧
    idlib_vector_3_f32_get_squared_length binary32 (Store.ofList [vec 0 0 0]) (some 0)
      = some (F32.fin false 0) ∧
    idlib_vector_3_f32_get_length binary32 (Store.ofList [vec 0 0 0]) (some 0)
      = some (F32.fin false 0) := by
  refine ⟨?_, by decide, by decide⟩
  intro σ v
  have h0 : ∀ i : Fin 3,
      (idlib_vector_3_f32.ofComponents binary32.zero binary32.zero binary32.zero).e i
        = F32.fin false 0 := by decide
  constructor
  · simp only [idlib_vector_3_f32_set_zero, set_eq_update, Option.some_bind,
      idlib_vector_3_f32_get_squared_length, Store.read, Function.update_same, h0]
    decide
  · simp only [idlib_vector_3_f32_set_zero, set_eq_update, Option.some_bind,
      idlib_vector_3_f32_get_length, idlib_vector_3_f32_get_squared_length, Store.read,
      Function.update_same, h0, Option.map_some']
    decide

/-- C14: for every store and non-null `v`, after `set(v, 3, 4, 0)` the squared
length of `v` is `25` and its length is `5.0`. -/
theorem set_3_4_0_length (σ : Store F32) (v : Nat) :
    (idlib_vector_3_f32_set σ (some v) (F32.ofNat 3) (F32.ofNat 4) (F32.ofNat 0)).bind
        (fun σ' => idlib_vector_3_f32_get_squared_length binary32 σ' (some v))
      = some (F32.ofNat 25) ∧
    (idlib_vector_3_f32_set σ (some v) (F32.ofNat 3) (F32.ofNat 4) (F32.ofNat 0)).bind
        (fun σ' => idlib_vector_3_f32_get_length binary32 σ' (some v))
      = some (F32.ofNat 5) := by
  constructor
  · simp only [set_eq_update, Option.some_bind, idlib_vector_3_f32_get_squared_length,
      Store.read, Function.update_same]
    decide
  · simp only [set_eq_update, Option.some_bind, idlib_vector_3_f32_get_length,
      idlib_vector_3_f32_get_squared_length, Store.read, Function.update_same,
      Option.map_some']
    decide

/-- C15: let `a = {1,2,3}` and `b = {4,5,6}`, and let `t` be an object other than
`a` and `b`.  Then `add(t, a, b)` returns with `t = {5,7,9}`, the following
aliased call `subtract(t, t, b)` returns with `t = {1,2,3}`, and `a` and `b` are
unchanged after each of the two calls. -/
theorem add_then_subtract_scenario (σ : Store F32) (a b t : Nat) (hta : t ≠ a) (htb : t ≠ b)
    (ha : σ a = vec 1 2 3) (hb : σ b = vec 4 5 6) :
    ∃ σ₁ σ₂, idlib_vector_3_f32_add binary32 σ (some t) (some a) (some b) = some σ₁ ∧
      σ₁ t = vec 5 7 9 ∧ σ₁ a = vec 1 2 3 ∧ σ₁ b = vec 4 5 6 ∧
      idlib_vector_3_f32_subtract binary32 σ₁ (some t) (some t) (some b) = some σ₂ ∧
      σ₂ t = vec 1 2 3 ∧ σ₂ a = vec 1 2 3 ∧ σ₂ b = vec 4 5 6 := by
  have h1 : ∀ i : Fin 3,
      binary32.add ((vec 1 2 3).e i) ((vec 4 5 6).e i) = (vec 5 7 9).e i := by decide
  have h2 : ∀ i : Fin 3,
      binary32.sub ((vec 5 7 9).e i) ((vec 4 5 6).e i) = (vec 1 2 3).e i := by decide
  have e1 : (add_via_temporary binary32 σ t a b) t = vec 5 7 9 := by
    apply idlib_vector_3_f32.ext_e
    funext i
    simp [add_via_temporary, Store.read, ha, hb, h1]
  have e1a : (add_via_temporary binary32 σ t a b) a = vec 1 2 3 := by
    simp [add_via_temporary, Function.update_noteq (Ne.symm hta), ha]
  have e1b : (add_via_temporary binary32 σ t a b) b = vec 4 5 6 := by
    simp [add_via_temporary, Function.update_noteq (Ne.symm htb), hb]
  refine ⟨_, _, add_eq_via_temporary binary32 σ t a b, e1, e1a, e1b,
    subtract_eq_via_temporary binary32 _ t t b, ?_, ?_, ?_⟩
  · apply idlib_vector_3_f32.ext_e
    funext i
    simp [subtract_via_temporary, Store.read, e1, e1b, h2]
  · simp [subtract_via_temporary, Function.update_noteq (Ne.symm hta), e1a]
  · simp [subtract_via_temporary, Function.update_noteq (Ne.symm htb), e1b]

/-- Witness of C15: `a` at address 0, `b` at address 1 and `t` at address 2. -/
theorem add_then_subtract_scenario_witness :
    ∃ σ₁ σ₂, idlib_vector_3_f32_add binary32 (Store.ofList [vec 1 2 3, vec 4 5 6])
        (some 2) (some 0) (some 1) = some σ₁ ∧
      σ₁ 2 = vec 5 7 9 ∧ σ₁ 0 = vec 1 2 3 ∧ σ₁ 1 = vec 4 5 6 ∧
      idlib_vector_3_f32_subtract binary32 σ₁ (some 2) (some 2) (some 1) = some σ₂ ∧
      σ₂ 2 = vec 1 2 3 ∧ σ₂ 0 = vec 1 2 3 ∧ σ₂ 1 = vec 4 5 6 :=
  add_then_subtract_scenario (Store.ofList [vec 1 2 3, vec 4 5 6]) 0 1 2 (by decide)
    (by decide) rfl rfl

/-- C17: for every store, non-null target and operands (aliased in any way),
`add(t, a, b)` and `add(t, b, a)` return, with the same store: in particular the
components of `t` are identical after the one and after the other. -/
theorem add_commutative (σ : Store F32) (t a b : Nat) :
    ∃ σ₁ σ₂, idlib_vector_3_f32_add binary32 σ (some t) (some a) (some b) = some σ₁ ∧
      idlib_vector_3_f32_add binary32 σ (some t) (some b) (some a) = some σ₂ ∧
      σ₁ = σ₂ ∧ ∀ i : Fin 3, σ₁.read t i = σ₂.read t i := by
  have h : add_via_temporary binary32 σ t a b = add_via_temporary binary32 σ t b a := by
    have ht : (⟨fun i => binary32.add (σ.read a i) (σ.read b i)⟩ : idlib_vector_3_f32 F32)
        = ⟨fun i => binary32.add (σ.read b i) (σ.read a i)⟩ := by
      congr 1
      funext i
      exact F32.add_comm _ _
    simp only [add_via_temporary, ht]
  exact ⟨_, _, add_eq_via_temporary binary32 σ t a b, add_eq_via_temporary binary32 σ t b a,
    h, fun i => by rw [h]⟩

/-- C19: for every store and all pointers `a`, `b` (equal or not, `NULL` or not,
whatever the components are, NaN included), `idlib_vector_3_f32_are_equal(a, b)`
and `idlib_vector_3_f32_are_equal(b, a)` have the same outcome; for non-null
pointers both return the same truth value. -/
theorem are_equal_symmetric :
    (∀ (σ : Store F32) (a b : Ptr),
      idlib_vector_3_f32_are_equal binary32 σ a b
        = idlib_vector_3_f32_are_equal binary32 σ b a) ∧
    (∀ (σ : Store F32) (a b : Nat),
      ∃ r, idlib_vector_3_f32_are_equal binary32 σ (some a) (some b) = some r ∧
        idlib_vector_3_f32_are_equal binary32 σ (some b) (some a) = some r) := by
  have hs : ∀ (σ : Store F32) (a b : Nat),
      idlib_vector_3_f32_are_equal binary32 σ (some a) (some b)
        = idlib_vector_3_f32_are_equal binary32 σ (some b) (some a) := by
    intro σ a b
    by_cases hab : a = b
    · subst hab; rfl
    · have hba : ¬ b = a := fun h => hab h.symm
      simp only [idlib_vector_3_f32_are_equal, if_neg hab, if_neg hba, binary32]
      rw [F32.eq_comm (σ.read a 0), F32.eq_comm (σ.read a 1), F32.eq_comm (σ.read a 2)]
  constructor
  · intro σ a b
    cases a <;> cases b <;> first | rfl | exact hs σ _ _
  · intro σ a b
    by_cases hab : a = b
    · subst hab
      exact ⟨true, by simp [idlib_vector_3_f32_are_equal], by simp [idlib_vector_3_f32_are_equal]⟩
    · refine ⟨binary32.eq (σ.read a 0) (σ.read b 0) && binary32.eq (σ.read a 1) (σ.read b 1)
          && binary32.eq (σ.read a 2) (σ.read b 2), ?_, ?_⟩
      · simp only [idlib_vector_3_f32_are_equal, if_neg hab]
      · rw [hs σ b a]
        simp only [idlib_vector_3_f32_are_equal, if_neg hab]

/-- C18: `idlib_vector_3_f32_get_length(v)` returns NaN if a component of `v` is a
NaN; the square-root function applied to a negative value is NaN (a case no
squared length reaches: the squared length is never less than zero); and
`get_length(v)` returns `+Inf` if the squared length of `v` is `+Inf`. -/
theorem get_length_nan_inf :
    (∀ (σ : Store F32) (v : Nat), σ.hasNaN v = true →
      idlib_vector_3_f32_get_length binary32 σ (some v) = some F32.nan) ∧
    (∀ q : F32, F32.lt q F32.zero = true → binary32.sqrt q = F32.nan) ∧
    (∀ (σ : Store F32) (v : Nat),
      ∃ q, idlib_vector_3_f32_get_squared_length binary32 σ (some v) = some q ∧
        idlib_vector_3_f32_get_length binary32 σ (some v) = some (binary32.sqrt q) ∧
        F32.lt q F32.zero = false) ∧
    (∀ (σ : Store F32) (v : Nat),
      idlib_vector_3_f32_get_squared_length binary32 σ (some v) = some (F32.inf false) →
      idlib_vector_3_f32_get_length binary32 σ (some v) = some (F32.inf false)) := by
  refine ⟨?_, F32.sqrt_of_lt_zero, ?_, ?_⟩
  · intro σ v h
    simp only [idlib_vector_3_f32_get_length, get_squared_length_nan σ v h, Option.map_some']
    rfl
  · intro σ v
    refine ⟨_, rfl, rfl, ?_⟩
    exact F32.not_lt_zero_of_nonneg_or_nan _
      (F32.add_nonneg_or_nan _ _
        (F32.add_nonneg_or_nan _ _ (F32.mul_self_nonneg_or_nan _)
          (F32.mul_self_nonneg_or_nan _))
        (F32.mul_self_nonneg_or_nan _))
  · intro σ v h
    simp only [idlib_vector_3_f32_get_length, h, Option.map_some']
    rfl

/-- Witness of C18: `{1, NaN, 2}` has length NaN; the root of `-4` is NaN; the
squared length of `{2^127, 0, 0}` overflows to `+Inf` and its length is `+Inf`. -/
theorem get_length_nan_inf_witness :
    idlib_vector_3_f32_get_length binary32
        (Store.ofList [idlib_vector_3_f32.ofComponents (F32.ofNat 1) F32.nan (F32.ofNat 2)])
        (some 0) = some F32.nan ∧
    binary32.sqrt (F32.neg (F32.ofNat 4)) = F32.nan ∧
    idlib_vector_3_f32_get_length binary32
        (Store.ofList [idlib_vector_3_f32.ofComponents (F32.fin false (2 ^ 276)) F32.zero
          F32.zero])
        (some 0) = some (F32.inf false) :=
  ⟨get_length_nan_inf.1 _ 0 (by decide),
   get_length_nan_inf.2.1 _ (by decide),
   get_length_nan_inf.2.2.2 _ 0 (by decide)⟩

/-- C20, refuted as stated: `v = {2^(-100), 0, 0}` is a binary32 vector with finite
components whose squared length compares equal to zero (`2^(-200)` underflows to
`+0.0`), although `v->e[0]` does not compare equal to zero. -/
theorem squared_length_zero_counterexample :
    (∀ i : Fin 3,
      ((Store.ofList [idlib_vector_3_f32.ofComponents (F32.fin false (2 ^ 49)) F32.zero
        F32.zero]).read 0 i).isFinite = true ∧
      ((Store.ofList [idlib_vector_3_f32.ofComponents (F32.fin false (2 ^ 49)) F32.zero
        F32.zero]).read 0 i).Valid) ∧
    (idlib_vector_3_f32_get_squared_length binary32
        (Store.ofList [idlib_vector_3_f32.ofComponents (F32.fin false (2 ^ 49)) F32.zero
          F32.zero]) (some 0)).map (fun q => (q, F32.eq q F32.zero))
      = some (F32.fin false 0, true) ∧
    F32.eq ((Store.ofList [idlib_vector_3_f32.ofComponents (F32.fin false (2 ^ 49)) F32.zero
      F32.zero]).read 0 0) F32.zero = false := by
  refine ⟨by decide, by decide, by decide⟩

/-- C20, amended: for every `v` with finite components,
`get_squared_length(v) == 0` holds if and only if every component of `v` has a
magnitude of at most `2^(-75)` (the magnitudes whose square rounds to zero); in
particular it holds when all three components are zero. -/
theorem squared_length_zero_iff (σ : Store F32) (v : Nat)
    (hfin : ∀ i : Fin 3, (σ.read v i).isFinite = true) :
    ∃ q, idlib_vector_3_f32_get_squared_length binary32 σ (some v) = some q ∧
      (F32.eq q F32.zero = true
        ↔ ∀ i : Fin 3, F32.le (F32.abs (σ.read v i)) (F32.fin false (2 ^ 74)) = true) ∧
      ((∀ i : Fin 3, F32.eq (σ.read v i) F32.zero = true) → F32.eq q F32.zero = true) := by
  have hiff : F32.eq (F32.add (F32.add (F32.mul (σ.read v 0) (σ.read v 0))
        (F32.mul (σ.read v 1) (σ.read v 1))) (F32.mul (σ.read v 2) (σ.read v 2))) F32.zero
        = true
      ↔ ∀ i : Fin 3, F32.le (F32.abs (σ.read v i)) (F32.fin false (2 ^ 74)) = true := by
    rw [F32.add_eq_zero_iff _ _
        (F32.add_isNonNeg _ _ (F32.mul_self_isNonNeg _ (hfin 0))
          (F32.mul_self_isNonNeg _ (hfin 1)))
        (F32.mul_self_isNonNeg _ (hfin 2)),
      F32.add_eq_zero_iff _ _ (F32.mul_self_isNonNeg _ (hfin 0))
        (F32.mul_self_isNonNeg _ (hfin 1)),
      F32.mul_self_eq_zero_iff _ (hfin 0), F32.mul_self_eq_zero_iff _ (hfin 1),
      F32.mul_self_eq_zero_iff _ (hfin 2)]
    constructor
    · rintro ⟨⟨h0, h1⟩, h2⟩ i
      fin_cases i
      · exact h0
      · exact h1
      · exact h2
    · intro h
      exact ⟨⟨h 0, h 1⟩, h 2⟩
  refine ⟨_, rfl, hiff, ?_⟩
  intro hz
  apply hiff.mpr
  intro i
  obtain ⟨s, hs⟩ := (F32.eq_zero_iff _).mp (hz i)
  rw [hs]
  simp [F32.abs, F32.le]

/-- Witness of C20 (amended): the squared length of `{2^(-75), -2^(-149), 0}` is
zero, and that of `{2^(-75) + 2^(-98), 0, 0}`, whose first component is the next
binary32 number, is not. -/
theorem squared_length_zero_iff_witness :
    (∃ q, idlib_vector_3_f32_get_squared_length binary32
        (Store.ofList [idlib_vector_3_f32.ofComponents (F32.fin false (2 ^ 74))
          (F32.fin true 1) F32.zero]) (some 0) = some q ∧
      (F32.eq q F32.zero = true
        ↔ ∀ i : Fin 3, F32.le (F32.abs ((Store.ofList [idlib_vector_3_f32.ofComponents
            (F32.fin false (2 ^ 74)) (F32.fin true 1) F32.zero]).read 0 i))
          (F32.fin false (2 ^ 74)) = true) ∧
      ((∀ i : Fin 3, F32.eq ((Store.ofList [idlib_vector_3_f32.ofComponents
            (F32.fin false (2 ^ 74)) (F32.fin true 1) F32.zero]).read 0 i) F32.zero = true)
        → F32.eq q F32.zero = true)) ∧
    idlib_vector_3_f32_get_squared_length binary32
        (Store.ofList [idlib_vector_3_f32.ofComponents (F32.fin false (2 ^ 74))
          (F32.fin true 1) F32.zero]) (some 0) = some (F32.fin false 0) ∧
    idlib_vector_3_f32_get_squared_length binary32
        (Store.ofList [idlib_vector_3_f32.ofComponents (F32.fin false (2 ^ 74 + 2 ^ 51))
          F32.zero F32.zero]) (some 0) = some (F32.fin false 1) :=
  ⟨squared_length_zero_iff _ 0 (by decide), by decide, by decide⟩

end Idlib
